import Mathlib

/-!
# Verification of the net-flows projection/scenario engine

A shallow embedding of the projection/scenario core of the repository:
`scripts/analysis/inflow_scenarios.py`, `scripts/analysis/aid_scenarios.py`,
`scripts/analysis/common.py` (row selectors), `scripts/models/seek.py`
(multiplier table construction and linear reduction) and the period-averaging
step of `scripts/analysis/debt_service.py` / `scripts/analysis/inflows.py`.

Modelling conventions:
* a pandas DataFrame of flow records becomes a `List Row`; row order is the
  positional order of the frame;
* float64 `value` columns become `ℚ` (exact arithmetic; the claims speak of
  exact numeric identity, which `ℚ` captures);
* code that raises at runtime is embedded in `Option`: `none` models an
  exception.  In particular `Series.max()` of an empty `year` column is NaN
  and the subsequent `range(latest + 1, target + 1)` raises `TypeError`, so
  the time-extension on an empty table is `none`;
* the per-year reduction loops are embedded literally as folds over
  `List.range`, one step per year of the loop.
-/

/-- A flow record: one row of the tables moved through the pipeline.
Fields correspond to the DataFrame columns touched by the scenario engine.
(`iso_code` is the entity identifier the composer partitions on.) -/
structure Row where
  country : String
  continent : String
  income_level : String
  prices : String
  counterpart_type : String
  iso_code : String
  indicator : String
  year : ℤ
  value : ℚ
  deriving DecidableEq

/-- One row of a multiplier table (`seek.py`: `year`, `iso_code` and one
multiplier column, e.g. `realistic_multiplier`). -/
structure MRow where
  iso_code : String
  year : ℤ
  mult : ℚ
  deriving DecidableEq

/- ## Row selectors (`scripts/analysis/common.py`) -/

/-- `needle` chars match at the front of `hay`. -/
def charsMatchFront : List Char → List Char → Bool
  | [], _ => true
  | _ :: _, [] => false
  | a :: as, b :: bs => a == b && charsMatchFront as bs

/-- `needle` occurs as a contiguous run somewhere in `hay`. -/
def charsHaveSub (needle : List Char) : List Char → Bool
  | [] => needle.isEmpty
  | b :: bs => charsMatchFront needle (b :: bs) || charsHaveSub needle bs

/-- Case-insensitive substring containment: the semantics of
`Series.str.contains(pat, case=False)` for a literal pattern. -/
def containsCI (hay needle : String) : Bool :=
  charsHaveSub (needle.toList.map Char.toLower) (hay.toList.map Char.toLower)

/-- `common.py: mask_grant_indicators` — `True` means the row is NOT a grant
indicator: `~data.indicator.str.contains("grant", case=False)`. -/
def maskGrantIndicators (indicator : String) : Bool :=
  !(containsCI indicator "grant")

/-- The regex `non[- ]?concessional` (case-insensitive, `contains` search):
three literal alternatives. -/
def containsNonConcessional (indicator : String) : Bool :=
  containsCI indicator "nonconcessional" ||
    containsCI indicator "non-concessional" ||
    containsCI indicator "non concessional"

/-- `common.py: mask_grant_and_concessional_indicators` —
`~(is_grant | (is_concessional & ~is_non_concessional))`. -/
def maskGrantAndConcessionalIndicators (indicator : String) : Bool :=
  let is_grant := containsCI indicator "grant"
  let is_concessional := containsCI indicator "concessional"
  let is_non_concessional := containsNonConcessional indicator
  !(is_grant || (is_concessional && !is_non_concessional))

/- ## Time extension (`projected_scenarios` / `projected_oda_scenarios`,
   lines building `projected_rows`) -/

/-- `data["year"].max()`: `none` on an empty table (pandas yields NaN there,
and the following `range(latest + 1, ...)` raises `TypeError`). -/
def maxYear : List Row → Option ℤ
  | [] => none
  | r :: rs => some (rs.foldl (fun m x => max m x.year) r.year)

/-- Python `range(a, b)` over integers. -/
def intRange (a b : ℤ) : List ℤ :=
  (List.range (b - a).toNat).map (fun (k : ℕ) => a + (k : ℤ))

/-- The extension loop body: for each `year` in `range(latest+1, target+1)`
append a copy of every row at `latest` with `year` overwritten. -/
def extendRows (latest target : ℤ) (data : List Row) : List Row :=
  data ++ (intRange (latest + 1) (target + 1)).flatMap (fun y =>
    (data.filter (fun r => r.year == latest)).map (fun r => { r with year := y }))

/-- The whole time-extension step: compute the latest year, then extend.
`none` models the `TypeError` raised on an empty table. -/
def extendTable (target : ℤ) (data : List Row) : Option (List Row) :=
  match maxYear data with
  | none => none
  | some latest => some (extendRows latest target data)

/- ## Linear reduction loop (`projected_scenarios`, lines 109–117 of
   `inflow_scenarios.py`; identically `projected_oda_scenarios`) -/

/-- One iteration of the reduction loop, acting on one row.  Iteration `k`
(0-based) handles `year = latest + k + 1` with 1-based ordinal `i = k + 1` and
factor `1 - (reduce_by / 100) * (i / n_years)`, `n_years = target - latest`.
Only rows of that year satisfying the reduce-mask are scaled. -/
def stepRow (latest target : ℤ) (p : ℚ) (mask : String → Bool) (k : ℕ) (r : Row) : Row :=
  if r.year = latest + (k : ℤ) + 1 ∧ mask r.indicator = true then
    { r with value := r.value * (1 - (p / 100) * ((((k : ℤ) + 1 : ℤ) : ℚ) / (((target - latest : ℤ)) : ℚ))) }
  else r

/-- The reduction loop: `for i, year in enumerate(years_to_reduce, start=1)`,
scaling masked rows of each year in turn. -/
def applyLinearReductionYears (latest target : ℤ) (p : ℚ) (mask : String → Bool)
    (data : List Row) : List Row :=
  (List.range (target - latest).toNat).foldl
    (fun acc k => acc.map (stepRow latest target p mask k)) data

/-- The factor the spec ascribes to year `y`:
`factor(y) = 1 - (p/100) * ((y - latest) / (target - latest))`. -/
def linearFactor (latest target : ℤ) (p : ℚ) (y : ℤ) : ℚ :=
  1 - (p / 100) * (((y - latest : ℤ) : ℚ) / ((target - latest : ℤ) : ℚ))

/-- Spec-side description of the reduction step (from the spec's words, for
the refinement theorem of C1): a masked row with `latest < year ≤ target` is
scaled by `linearFactor`, every other row is untouched. -/
def linearReductionSpecRow (latest target : ℤ) (p : ℚ) (mask : String → Bool) (r : Row) : Row :=
  if mask r.indicator = true ∧ latest < r.year ∧ r.year ≤ target then
    { r with value := r.value * linearFactor latest target p r.year }
  else r

/-- `projected_scenarios` (linear-reduction branch): extend to `target`
(raising on an empty table), then run the reduction loop.  The reduce-mask of
the source is `~mask_grant_indicators` resp.
`~mask_grant_and_concessional_indicators`; it is passed here as `mask`
(`mask ind = true` means the row is reduced). -/
def projectedScenarios (mask : String → Bool) (reduceBy : ℚ) (target : ℤ)
    (data : List Row) : Option (List Row) :=
  match maxYear data with
  | none => none
  | some latest =>
      some (applyLinearReductionYears latest target reduceBy mask
        (extendRows latest target data))

/- ## Multiplier projector (`projected_scenarios_with_multiplier`;
   `projected_oda_with_multiplier` is the same with `mask = fun _ => true`) -/

/-- The multiplier values matching `(iso_code, year)` in the multiplier
table — the rows a left merge on `["iso_code", "year"]` would join. -/
def lookupMult (ms : List MRow) (iso : String) (y : ℤ) : List ℚ :=
  (ms.filter (fun m => m.iso_code == iso && m.year == y)).map (fun m => m.mult)

/-- The merge-and-scale step:
`data.merge(multipliers, on=["iso_code","year"], how="left")` followed by
`value * mult.where(apply_mask, 1.0).fillna(1.0)`.  A left merge replicates a
row once per matching multiplier row and keeps unmatched rows (with NaN,
i.e. no multiplier); `where` neutralises the multiplier outside the mask and
`fillna` neutralises missing joins. -/
def applyMultiplierStep (ms : List MRow) (mask : String → Bool) (data : List Row) : List Row :=
  data.flatMap (fun r =>
    match lookupMult ms r.iso_code r.year with
    | [] => [{ r with value := r.value * 1 }]
    | qs => qs.map (fun q =>
        { r with value := r.value * (if mask r.indicator = true then q else 1) }))

/-- Spec-side description of the multiplier step for a keyed multiplier table
(for the refinement theorem of C3): the factor is the joined multiplier when
the row is masked and matched, and exactly `1` otherwise. -/
def multiplierSpecRow (ms : List MRow) (mask : String → Bool) (r : Row) : Row :=
  match lookupMult ms r.iso_code r.year with
  | [] => { r with value := r.value * 1 }
  | q :: _ => { r with value := r.value * (if mask r.indicator = true then q else 1) }

/-- `projected_scenarios_with_multiplier`: extend to `target` (raising on an
empty table), then merge the multipliers and scale. -/
def projectedScenariosWithMultiplier (ms : List MRow) (mask : String → Bool)
    (target : ℤ) (data : List Row) : Option (List Row) :=
  match maxYear data with
  | none => none
  | some latest => some (applyMultiplierStep ms mask (extendRows latest target data))

/- ## `seek.py: apply_linear_reduction` on a multiplier table -/

/-- `seek.py: apply_linear_reduction`.  `output_col` starts as a copy of the
multiplier; the loop overwrites window years with
`multiplier - reduction * ((i + 1) / num_years)` (`i` 0-based from
`start_year`, so `i + 1 = year - start_year + 1`), computed from the original
multiplier column; rows after `end_year` get the full reduction.  Each row's
year falls in exactly one of the three regimes, so the loop acts on each row
as the per-row function below.  Raises (`none`) iff `num_years <= 0`. -/
def applyLinearReductionM (data : List MRow) (reduction : ℚ)
    (startYear endYear : ℤ) : Option (List MRow) :=
  let numYears : ℤ := endYear - startYear + 1
  if numYears ≤ 0 then none
  else some (data.map (fun m =>
    if startYear ≤ m.year ∧ m.year ≤ endYear then
      { m with mult := m.mult - reduction * (((m.year - startYear + 1 : ℤ) : ℚ) / ((numYears : ℤ) : ℚ)) }
    else if endYear < m.year then
      { m with mult := m.mult - reduction }
    else m))

/- ## Scenario composer (`projected_inflows_scenario`) -/

/-- `data["iso_code"].isin(seek_scenarios["iso_code"])` for one row. -/
def isSeekRow (seekTab : List MRow) (r : Row) : Bool :=
  seekTab.any (fun m => m.iso_code == r.iso_code)

/-- The partition / project / concatenate core of the composer: split into
the seek entities, USA, and the rest; project each with its parameters; then
`pd.concat`.  `none` if any branch raises (e.g. a partition is empty). -/
def composeWith (seekTab : List MRow) (mask : String → Bool)
    (usReduce restReduce : ℚ) (data : List Row) : Option (List Row) :=
  let dataSeek := data.filter (fun r => isSeekRow seekTab r)
  let dataOther := data.filter (fun r => !isSeekRow seekTab r)
  let dataUs := dataOther.filter (fun r => r.iso_code == "USA")
  let dataRest := dataOther.filter (fun r => !(r.iso_code == "USA"))
  match projectedScenariosWithMultiplier seekTab mask 2027 dataSeek,
        projectedScenarios mask usReduce 2027 dataUs,
        projectedScenarios mask restReduce 2027 dataRest with
  | some a, some b, some c => some (a ++ b ++ c)
  | _, _, _ => none

/-- `projected_inflows_scenario` up to the concatenation of the three
projected partitions (the spec's `compose_scenario`; the trailing rollup is
the aggregation layer).  Scenario 2 uses the multiplier table as is with
reductions USA 60 / rest 0; scenario 3 first applies
`apply_linear_reduction(reduction=0.1, start_year=2025, end_year=2027)` and
uses reductions USA 80 / rest 10; anything else raises `ValueError`. -/
def composeScenario (seek : List MRow) (mask : String → Bool) (scenario : ℤ)
    (data : List Row) : Option (List Row) :=
  if scenario = 2 then
    composeWith seek mask 60 0 data
  else if scenario = 3 then
    match applyLinearReductionM seek (1 / 10) 2025 2027 with
    | none => none
    | some seekReduced => composeWith seekReduced mask 80 10 data
  else none

/- ## Period averaging (`debt_service.py: debt_service_by_period`;
   `inflows.py: inflows_by_period` is the same computation with the
   china-as-counterpart grouper) -/

/-- One entry of `AVERAGE_PERIODS`: a named year range with an explicit
declared length used as the divisor.  (`AVERAGE_PERIODS` itself is data of
this repository not under `src/`; the averaging code below is from source and
is parameterised by the period list.) -/
structure PeriodDef where
  name : String
  startYear : ℤ
  endYear : ℤ
  periodLength : ℚ
  deriving DecidableEq

/-- One output row of the period-averaging step. -/
structure PeriodRow where
  period : String
  country : String
  continent : String
  income_level : String
  prices : String
  counterpart_type : String
  value : ℚ
  deriving DecidableEq

/-- The non-period part of the grouping key of the period aggregation. -/
def rowKey (r : Row) : String × String × String × String × String :=
  (r.country, r.continent, r.income_level, r.prices, r.counterpart_type)

/-- The assignment loop over `AVERAGE_PERIODS.items()`: rows in a period's
year range get that period label; a later period overwrites an earlier one;
rows in no range keep NaN (`none`). -/
def assignPeriod (periods : List PeriodDef) (y : ℤ) : Option String :=
  periods.foldl
    (fun acc p => if p.startYear ≤ y ∧ y ≤ p.endYear then some p.name else acc) none

/-- Decimal floor of a rational. -/
def qfloor (q : ℚ) : ℤ := q.num.fdiv (q.den : ℤ)

/-- Round half to even (the rounding of `Series.round`, idealised to exact
decimal arithmetic). -/
def roundHalfEven (q : ℚ) : ℤ :=
  let f := qfloor q
  let r := q - (f : ℚ)
  if r < 1 / 2 then f
  else if 1 / 2 < r then f + 1
  else if f % 2 = 0 then f else f + 1

/-- `.round(2)`: round to 2 decimal places. -/
def round2 (q : ℚ) : ℚ := ((roundHalfEven (q * 100) : ℤ) : ℚ) / 100

/-- The period-labelled rows surviving `dropna(subset=["period"])`. -/
def periodAssigned (periods : List PeriodDef) (data : List Row) : List (String × Row) :=
  data.filterMap (fun r => (assignPeriod periods r.year).map (fun p => (p, r)))

/-- The grouping key of the period aggregation:
`["period", "country", "continent", "income_level", "prices", "counterpart_type"]`. -/
def periodKey (pr : String × Row) : String × String × String × String × String × String :=
  (pr.1, pr.2.country, pr.2.continent, pr.2.income_level, pr.2.prices,
    pr.2.counterpart_type)

/-- `debt_service_by_period`: label rows with periods, drop unlabelled rows,
group by the period key summing `value`, then divide each group total by the
period's declared length (`AVERAGE_PERIODS[x]["length"]`) and round to 2
decimals. -/
def debtServiceByPeriod (periods : List PeriodDef) (data : List Row) : List PeriodRow :=
  let assigned := periodAssigned periods data
  let keys := (assigned.map periodKey).dedup
  keys.map (fun k =>
    let total := ((assigned.filter (fun pr => periodKey pr = k)).map
      (fun pr => pr.2.value)).sum
    let len := ((periods.find? (fun p => p.name == k.1)).map
      (fun p => p.periodLength)).getD 0
    { period := k.1, country := k.2.1, continent := k.2.2.1,
      income_level := k.2.2.2.1, prices := k.2.2.2.2.1,
      counterpart_type := k.2.2.2.2.2, value := round2 (total / len) })

/-- A concrete row with every column blank, used to build test inputs. -/
def blankRow : Row :=
  { country := "", continent := "", income_level := "", prices := "",
    counterpart_type := "", iso_code := "", indicator := "", year := 0, value := 0 }

/- ## Generic helper lemmas -/

/-- A fold whose body maps each element equals a map folding each element. -/
lemma foldl_map_comm {α β : Type} (L : List α) (f : α → β → β) (xs : List β) :
    L.foldl (fun acc a => acc.map (f a)) xs
      = xs.map (fun x => L.foldl (fun b a => f a b) x) := by
  induction L generalizing xs with
  | nil => simp
  | cons a L ih =>
      simp only [List.foldl_cons]
      rw [ih, List.map_map]
      rfl

/-- Fold over elements that all fix the state. -/
lemma foldl_fix {α β : Type} (L : List α) (f : α → β → β) (x : β)
    (h : ∀ a ∈ L, f a x = x) : L.foldl (fun b a => f a b) x = x := by
  induction L with
  | nil => rfl
  | cons a L ih =>
      simp only [List.foldl_cons]
      rw [h a (by simp)]
      exact ih (fun b hb => h b (by simp [hb]))

/-- A fold over `range n` where exactly the step `k0` acts. -/
lemma foldl_range_single {β : Type} (f : ℕ → β → β) (x : β) (n k0 : ℕ) (hk : k0 < n)
    (hid : ∀ k < n, k ≠ k0 → f k x = x ∧ f k (f k0 x) = f k0 x) :
    (List.range n).foldl (fun b k => f k b) x = f k0 x := by
  induction n with
  | zero => omega
  | succ m ih =>
      rw [List.range_succ, List.foldl_append]
      by_cases hm : k0 = m
      · subst hm
        rw [foldl_fix _ _ _ (fun k hkm => (hid k (by
          have := List.mem_range.1 hkm; omega) (by
          have := List.mem_range.1 hkm; omega)).1)]
        simp
      · have h1 : (List.range m).foldl (fun b k => f k b) x = f k0 x :=
          ih (by omega) (fun k hk2 hne => hid k (by omega) hne)
        rw [h1]
        simpa using (hid m (by omega) (fun he => hm he.symm)).2

/-- A flatMap whose branches are all singletons is a map. -/
lemma flatMap_eq_map_of_singleton {α β : Type} (l : List α) (f : α → List β)
    (g : α → β) (h : ∀ a ∈ l, f a = [g a]) : l.flatMap f = l.map g := by
  induction l with
  | nil => rfl
  | cons a l ih =>
      simp only [List.flatMap_cons, List.map_cons, h a (by simp)]
      rw [ih (fun b hb => h b (by simp [hb]))]
      rfl

/-- Mapping a function that fixes every member. -/
lemma map_id_of_mem {α : Type} (l : List α) (f : α → α) (h : ∀ a ∈ l, f a = a) :
    l.map f = l := by
  induction l with
  | nil => rfl
  | cons a l ih =>
      simp only [List.map_cons, h a (by simp)]
      rw [ih (fun b hb => h b (by simp [hb]))]

/-- Length of a flatMap with constant branch length. -/
lemma flatMap_length_const {α β : Type} (l : List α) (f : α → List β) (c : ℕ)
    (h : ∀ a ∈ l, (f a).length = c) : (l.flatMap f).length = l.length * c := by
  induction l with
  | nil => simp
  | cons a l ih =>
      simp only [List.flatMap_cons, List.length_append, List.length_cons,
        h a (by simp)]
      rw [ih (fun b hb => h b (by simp [hb]))]
      ring

/- ## Facts about `stepRow` and the reduction loop -/

lemma stepRow_fix_of_year_ne (latest target : ℤ) (p : ℚ) (mask : String → Bool)
    (k : ℕ) (b : Row) (hne : ¬(b.year = latest + (k : ℤ) + 1)) :
    stepRow latest target p mask k b = b := by
  unfold stepRow
  rw [if_neg (fun hc => hne hc.1)]

lemma stepRow_fields (latest target : ℤ) (p : ℚ) (mask : String → Bool) (k : ℕ) (r : Row) :
    (stepRow latest target p mask k r).year = r.year ∧
    (stepRow latest target p mask k r).indicator = r.indicator ∧
    (stepRow latest target p mask k r).iso_code = r.iso_code := by
  unfold stepRow
  split <;> exact ⟨rfl, rfl, rfl⟩

/-- Folding all loop iterations over a single row gives the spec row. -/
lemma reduceFold_eq_specRow (latest target : ℤ) (p : ℚ) (mask : String → Bool) (r : Row) :
    (List.range (target - latest).toNat).foldl
      (fun b k => stepRow latest target p mask k b) r
      = linearReductionSpecRow latest target p mask r := by
  by_cases hcond : mask r.indicator = true ∧ latest < r.year ∧ r.year ≤ target
  · obtain ⟨hm, hy1, hy2⟩ := hcond
    have hk0lt : (r.year - latest - 1).toNat < (target - latest).toNat := by omega
    have hk0year : latest + (((r.year - latest - 1).toNat : ℤ)) + 1 = r.year := by omega
    rw [foldl_range_single (fun k b => stepRow latest target p mask k b) r
      ((target - latest).toNat) ((r.year - latest - 1).toNat) hk0lt ?hid]
    case hid =>
      intro k hkn hkne
      have hne : ¬(r.year = latest + (k : ℤ) + 1) := by omega
      have hfix := stepRow_fix_of_year_ne latest target p mask k r hne
      have hfix2 := stepRow_fix_of_year_ne latest target p mask k
        (stepRow latest target p mask ((r.year - latest - 1).toNat) r)
        (by
          rw [(stepRow_fields latest target p mask ((r.year - latest - 1).toNat) r).1]
          exact hne)
      exact ⟨hfix, hfix2⟩
    · show stepRow latest target p mask ((r.year - latest - 1).toNat) r
        = linearReductionSpecRow latest target p mask r
      have hcast : ((((r.year - latest - 1).toNat : ℤ) + 1 : ℤ) : ℚ)
          = ((r.year - latest : ℤ) : ℚ) := by
        exact_mod_cast congrArg (fun z : ℤ => (z : ℚ)) (by omega :
          ((r.year - latest - 1).toNat : ℤ) + 1 = r.year - latest)
      unfold stepRow linearReductionSpecRow linearFactor
      rw [if_pos ⟨by omega, hm⟩, if_pos ⟨hm, hy1, hy2⟩, hcast]
  · rw [foldl_fix]
    · unfold linearReductionSpecRow
      rw [if_neg hcond]
    · intro k hk
      unfold stepRow
      rw [if_neg]
      rintro ⟨h1, h2⟩
      have hkr : (k : ℤ) < target - latest := by
        have := List.mem_range.1 hk; omega
      exact hcond ⟨h2, by omega, by omega⟩

/-- The reduction loop acts row-wise as `linearReductionSpecRow`. -/
lemma applyLinearReductionYears_eq_map (latest target : ℤ) (p : ℚ)
    (mask : String → Bool) (data : List Row) :
    applyLinearReductionYears latest target p mask data
      = data.map (linearReductionSpecRow latest target p mask) := by
  unfold applyLinearReductionYears
  rw [foldl_map_comm]
  exact congrArg (fun g => List.map g data)
    (funext (reduceFold_eq_specRow latest target p mask))

/- ## Claim C1: the linear reduction step -/

/-- C1.  For a table extended from latest year `L` to target `T > L`, any
reduction percentage `p` and any row mask, the reduction loop multiplies the
value of each masked row with year in `L+1 .. T` by
`factor(y) = 1 - (p/100) * ((y - L)/(T - L))` (so at `y = T` the factor is
exactly `1 - p/100`), leaves every row failing the mask or with year `≤ L`
numerically unchanged, and `p = 0` changes nothing. -/
theorem c1_linear_reduction_step (latest target : ℤ) (p : ℚ) (mask : String → Bool)
    (data : List Row) (h : latest < target) :
    (applyLinearReductionYears latest target p mask data
        = data.map (linearReductionSpecRow latest target p mask)) ∧
    (∀ r : Row, mask r.indicator = true → r.year = target →
        (linearReductionSpecRow latest target p mask r).value
          = r.value * (1 - p / 100)) ∧
    (∀ r : Row, mask r.indicator = false ∨ r.year ≤ latest →
        linearReductionSpecRow latest target p mask r = r) ∧
    (applyLinearReductionYears latest target 0 mask data = data) := by
  refine ⟨applyLinearReductionYears_eq_map latest target p mask data, ?_, ?_, ?_⟩
  · intro r hm hy
    unfold linearReductionSpecRow
    rw [if_pos ⟨hm, by omega, by omega⟩]
    have hne : ((target - latest : ℤ) : ℚ) ≠ 0 := by
      exact_mod_cast (by omega : (target - latest : ℤ) ≠ 0)
    simp only [linearFactor, hy, div_self hne]
    rw [mul_one]
  · intro r hr
    unfold linearReductionSpecRow
    rw [if_neg]
    rintro ⟨h1, h2, _⟩
    rcases hr with hr | hr
    · rw [h1] at hr; exact absurd hr (by decide)
    · omega
  · rw [applyLinearReductionYears_eq_map]
    apply map_id_of_mem
    intro r _
    unfold linearReductionSpecRow
    split
    · unfold linearFactor
      norm_num
    · rfl

/-- C1 witness: a concrete instantiation (latest 2023, target 2025, p = 50):
the hypothesis `latest < target` holds and the loop is the spec map; the
masked row at the target year is scaled by exactly `1 - 50/100`. -/
theorem c1_linear_reduction_step_witness :
    ((2023 : ℤ) < 2025) ∧
    (applyLinearReductionYears 2023 2025 50 (fun _ => true)
        [{ blankRow with year := 2025, value := 100 }]
      = [{ blankRow with year := 2025, value := 100 }].map
          (linearReductionSpecRow 2023 2025 50 (fun _ => true))) ∧
    (applyLinearReductionYears 2023 2025 50 (fun _ => true)
        [{ blankRow with year := 2025, value := 100 }]
      = [{ blankRow with year := 2025, value := 50 }]) :=
  ⟨by decide,
    (c1_linear_reduction_step 2023 2025 50 (fun _ => true)
      [{ blankRow with year := 2025, value := 100 }] (by decide)).1,
    by
      have h2 : (2 : ℤ).toNat = 2 := rfl
      have hr : List.range 2 = [0, 1] := rfl
      norm_num [applyLinearReductionYears, stepRow, blankRow, h2, hr,
        List.foldl_cons, List.foldl_nil, Row.mk.injEq]⟩

/- ## Claim C6: the row selectors -/

/-- C6.  Grants mode selects exactly the indicators containing "grant"
(case-insensitively); concessional mode selects exactly those containing
"grant" or containing "concessional" without matching `non[- ]?concessional`;
hence grants-mode selection implies concessional-mode selection, and a
non-concessional indicator without "grant" is exempt in concessional mode.
(Selection is the negation of the source's NOT-masks.) -/
theorem c6_row_selector_modes (s : String) :
    (maskGrantIndicators s = false ↔ containsCI s "grant" = true) ∧
    (maskGrantAndConcessionalIndicators s = false ↔
      (containsCI s "grant" = true ∨
        (containsCI s "concessional" = true ∧ containsNonConcessional s = false))) ∧
    (maskGrantIndicators s = false → maskGrantAndConcessionalIndicators s = false) ∧
    (containsNonConcessional s = true → containsCI s "grant" = false →
      maskGrantAndConcessionalIndicators s = true) := by
  simp only [maskGrantIndicators, maskGrantAndConcessionalIndicators]
  cases h1 : containsCI s "grant" <;> cases h2 : containsCI s "concessional" <;>
    cases h3 : containsNonConcessional s <;> simp

/-- C6 witness: concrete indicator strings exercising both implications. -/
theorem c6_row_selector_modes_witness :
    (maskGrantIndicators "Grants, bilateral" = false) ∧
    (maskGrantAndConcessionalIndicators "Grants, bilateral" = false) ∧
    (containsNonConcessional "Non-concessional debt" = true) ∧
    (containsCI "Non-concessional debt" "grant" = false) ∧
    (maskGrantAndConcessionalIndicators "Non-concessional debt" = true) :=
  ⟨by decide, (c6_row_selector_modes "Grants, bilateral").2.2.1 (by decide),
    by decide, by decide,
    (c6_row_selector_modes "Non-concessional debt").2.2.2 (by decide) (by decide)⟩

/- ## Claim C7: extension of an empty table -/

/-- C7 counterexample: on an empty input table the time-extension step does
not return an empty table; it raises (`Series.max()` of the empty `year`
column is NaN, so `range(latest + 1, ...)` raises `TypeError`), modelled as
`none`. -/
theorem c7_counterexample : extendTable 2027 ([] : List Row) = none := rfl

/-- C7 amended: for every target year, the time-extension step on an empty
input table raises an error rather than returning an empty table; on every
non-empty table it does return a table. -/
theorem c7_amended_empty_extension :
    (∀ target : ℤ, extendTable target ([] : List Row) = none) ∧
    (∀ (target : ℤ) (data : List Row), data ≠ [] →
      ∃ out, extendTable target data = some out) := by
  refine ⟨fun t => rfl, fun t data h => ?_⟩
  cases data with
  | nil => exact absurd rfl h
  | cons r rs => exact ⟨_, rfl⟩

/-- C7 witness: a one-row table is non-empty and gets extended. -/
theorem c7_amended_empty_extension_witness :
    ([blankRow] ≠ ([] : List Row)) ∧ ∃ out, extendTable 2027 [blankRow] = some out :=
  ⟨by decide, c7_amended_empty_extension.2 2027 [blankRow] (by decide)⟩

/- ## Claim C8: configuration errors fail loudly -/

/-- C8.  The composer raises (`ValueError`, modelled `none`) for every
scenario identifier outside `{2, 3}` before producing any output, and
`apply_linear_reduction` raises if and only if `end_year < start_year`
(its check `num_years = end - start + 1 <= 0` is equivalent). -/
theorem c8_config_errors (seek : List MRow) (mask : String → Bool) (scenario : ℤ)
    (data : List Row) (h2 : scenario ≠ 2) (h3 : scenario ≠ 3)
    (md : List MRow) (reduction : ℚ) (s e : ℤ) :
    composeScenario seek mask scenario data = none ∧
    (applyLinearReductionM md reduction s e = none ↔ e < s) := by
  constructor
  · simp [composeScenario, h2, h3]
  · constructor
    · intro hnone
      by_contra hlt
      push_neg at hlt
      simp only [applyLinearReductionM] at hnone
      rw [if_neg (show ¬(e - s + 1 ≤ 0) by omega)] at hnone
      exact Option.noConfusion hnone
    · intro hlt
      simp only [applyLinearReductionM]
      rw [if_pos (show e - s + 1 ≤ 0 by omega)]

/-- C8 witness: scenario 4 is rejected; a reversed reduction window
(2027 down to 2025) raises. -/
theorem c8_config_errors_witness :
    ((4 : ℤ) ≠ 2) ∧ ((4 : ℤ) ≠ 3) ∧
    (composeScenario [] (fun _ => true) 4 [] = none ∧
      (applyLinearReductionM [] 0 2027 2025 = none ↔ (2025 : ℤ) < 2027)) :=
  ⟨by decide, by decide,
    c8_config_errors [] (fun _ => true) 4 [] (by decide) (by decide) [] 0 2027 2025⟩

/- ## Claim C10: multiplier non-negativity -/

/-- C10 counterexample: `apply_linear_reduction` does not clamp at zero — an
input multiplier of `0` at the first window year (reduction 0.1 over
2025–2027) is reduced to `-1/30 < 0`, so the reduced multiplier column is
not always non-negative. -/
theorem c10_counterexample :
    applyLinearReductionM [{ iso_code := "FRA", year := 2025, mult := 0 }]
        (1 / 10) 2025 2027
      = some [{ iso_code := "FRA", year := 2025, mult := -(1 / 30) }] ∧
    ¬((0 : ℚ) ≤ -(1 / 30)) := by
  constructor
  · norm_num [applyLinearReductionM, MRow.mk.injEq]
  · norm_num

/-- C10 amended: `apply_linear_reduction` preserves entity and year, only
ever lowers a multiplier, lowers it by at most the full `reduction`, and
yields a non-negative multiplier whenever the input multiplier is at least
`reduction`; it does not clamp, so smaller inputs can go negative. -/
theorem c10_amended_multiplier_bounds (data : List MRow) (reduction : ℚ) (s e : ℤ)
    (out : List MRow) (hred : 0 ≤ reduction)
    (hout : applyLinearReductionM data reduction s e = some out) :
    out.length = data.length ∧
    ∀ j (hj : j < data.length) (hj2 : j < out.length),
      (out.get ⟨j, hj2⟩).iso_code = (data.get ⟨j, hj⟩).iso_code ∧
      (out.get ⟨j, hj2⟩).year = (data.get ⟨j, hj⟩).year ∧
      (data.get ⟨j, hj⟩).mult - reduction ≤ (out.get ⟨j, hj2⟩).mult ∧
      (out.get ⟨j, hj2⟩).mult ≤ (data.get ⟨j, hj⟩).mult ∧
      (reduction ≤ (data.get ⟨j, hj⟩).mult → 0 ≤ (out.get ⟨j, hj2⟩).mult) := by
  by_cases hc : e - s + 1 ≤ 0
  · exfalso
    simp only [applyLinearReductionM] at hout
    rw [if_pos hc] at hout
    exact Option.noConfusion hout
  · simp only [applyLinearReductionM] at hout
    rw [if_neg hc] at hout
    have hmap := Option.some.inj hout
    subst hmap
    refine ⟨by simp, ?_⟩
    intro j hj hj2
    simp only [List.get_map]
    set m := data.get ⟨j, hj⟩ with hm
    by_cases h1 : s ≤ m.year ∧ m.year ≤ e
    · rw [if_pos h1]
      have hnum : (0 : ℚ) < ((e - s + 1 : ℤ) : ℚ) := by exact_mod_cast (by omega : (0:ℤ) < e - s + 1)
      have ht0 : (0 : ℚ) ≤ ((m.year - s + 1 : ℤ) : ℚ) := by exact_mod_cast (by omega : (0:ℤ) ≤ m.year - s + 1)
      have ht1 : ((m.year - s + 1 : ℤ) : ℚ) ≤ ((e - s + 1 : ℤ) : ℚ) := by
        exact_mod_cast (by omega : m.year - s + 1 ≤ e - s + 1)
      have htle : ((m.year - s + 1 : ℤ) : ℚ) / ((e - s + 1 : ℤ) : ℚ) ≤ 1 := by
        rw [div_le_one hnum]; exact ht1
      have htge : 0 ≤ ((m.year - s + 1 : ℤ) : ℚ) / ((e - s + 1 : ℤ) : ℚ) :=
        div_nonneg ht0 (le_of_lt hnum)
      have hA : reduction * (((m.year - s + 1 : ℤ) : ℚ) / ((e - s + 1 : ℤ) : ℚ)) ≤ reduction :=
        mul_le_of_le_one_right hred htle
      have hB : 0 ≤ reduction * (((m.year - s + 1 : ℤ) : ℚ) / ((e - s + 1 : ℤ) : ℚ)) :=
        mul_nonneg hred htge
      refine ⟨rfl, rfl, by simp only []; linarith, by simp only []; linarith,
        fun hge => by simp only []; linarith⟩
    · rw [if_neg h1]
      by_cases h2 : e < m.year
      · rw [if_pos h2]
        refine ⟨rfl, rfl, by simp only []; linarith, by simp only []; linarith,
          fun hge => by simp only []; linarith⟩
      · rw [if_neg h2]
        exact ⟨rfl, rfl, by linarith, le_refl _, fun hge => by linarith⟩

/-- C10 witness: a concrete run (multiplier 1 at 2026, reduction 0.1 over
2025–2027) satisfying the hypotheses, with the length conclusion. -/
theorem c10_amended_multiplier_bounds_witness :
    (0 ≤ (1 / 10 : ℚ)) ∧
    (applyLinearReductionM [{ iso_code := "FRA", year := 2026, mult := 1 }]
        (1 / 10) 2025 2027
      = some [{ iso_code := "FRA", year := 2026, mult := 14 / 15 }]) ∧
    ([{ iso_code := "FRA", year := 2026, mult := (14 / 15 : ℚ) }] : List MRow).length
      = ([{ iso_code := "FRA", year := 2026, mult := (1 : ℚ) }] : List MRow).length :=
  ⟨by norm_num, by norm_num [applyLinearReductionM, MRow.mk.injEq],
    (c10_amended_multiplier_bounds
      [{ iso_code := "FRA", year := 2026, mult := 1 }] (1 / 10) 2025 2027
      [{ iso_code := "FRA", year := 2026, mult := 14 / 15 }]
      (by norm_num) (by norm_num [applyLinearReductionM, MRow.mk.injEq])).1⟩

/- ## Claim C3: the multiplier projector defaults -/

/-- A key-match in a multiplier table means field-wise equality. -/
lemma mkey_eq {m : MRow} {iso : String} {y : ℤ}
    (h : (m.iso_code == iso && m.year == y) = true) :
    m.iso_code = iso ∧ m.year = y := by
  rw [Bool.and_eq_true, beq_iff_eq, beq_iff_eq] at h
  exact h

/-- With at most one multiplier row per `(iso_code, year)` key, a lookup
returns nothing or a single multiplier. -/
lemma lookupMult_short (ms : List MRow) (iso : String) (y : ℤ)
    (h : List.Pairwise (fun a b => a.iso_code ≠ b.iso_code ∨ a.year ≠ b.year) ms) :
    lookupMult ms iso y = [] ∨ ∃ q, lookupMult ms iso y = [q] := by
  induction ms with
  | nil => exact Or.inl rfl
  | cons m ms ih =>
      obtain ⟨hm, htail⟩ := List.pairwise_cons.1 h
      by_cases hp : (m.iso_code == iso && m.year == y) = true
      · right
        obtain ⟨hiso, hy⟩ := mkey_eq hp
        have htl : ms.filter (fun x => x.iso_code == iso && x.year == y) = [] := by
          rw [List.filter_eq_nil_iff]
          intro a ha hpa
          obtain ⟨h1, h2⟩ := mkey_eq hpa
          rcases hm a ha with hne | hne
          · exact hne (hiso.trans h1.symm)
          · exact hne (hy.trans h2.symm)
        exact ⟨m.mult, by simp [lookupMult, List.filter_cons, hp, htl]⟩
      · have heq : lookupMult (m :: ms) iso y = lookupMult ms iso y := by
          simp [lookupMult, List.filter_cons, hp]
        rw [heq]
        exact ih htail

/-- With unique keys the merge-and-scale step acts row-wise. -/
lemma applyMultiplierStep_eq_map (ms : List MRow) (mask : String → Bool)
    (data : List Row)
    (h : List.Pairwise (fun a b => a.iso_code ≠ b.iso_code ∨ a.year ≠ b.year) ms) :
    applyMultiplierStep ms mask data = data.map (multiplierSpecRow ms mask) := by
  unfold applyMultiplierStep
  apply flatMap_eq_map_of_singleton
  intro r _
  rcases lookupMult_short ms r.iso_code r.year h with h0 | ⟨q, hq⟩
  · simp [multiplierSpecRow, h0]
  · simp [multiplierSpecRow, hq]

/-- C3.  With a keyed multiplier table (at most one row per `(entity, year)`),
the multiplier step acts row-wise: the factor is the joined multiplier when
the row is masked and matched and exactly `1` otherwise; in particular an
unmatched row — masked or not — is returned exactly unchanged, with no null
propagation. -/
theorem c3_multiplier_default (ms : List MRow) (mask : String → Bool) (data : List Row)
    (huniq : List.Pairwise (fun a b => a.iso_code ≠ b.iso_code ∨ a.year ≠ b.year) ms) :
    (applyMultiplierStep ms mask data = data.map (multiplierSpecRow ms mask)) ∧
    (∀ r : Row, lookupMult ms r.iso_code r.year = [] →
      multiplierSpecRow ms mask r = r) ∧
    (∀ (r : Row) (q : ℚ), lookupMult ms r.iso_code r.year = [q] →
      (multiplierSpecRow ms mask r).value
        = r.value * (if mask r.indicator = true then q else 1)) := by
  refine ⟨applyMultiplierStep_eq_map ms mask data huniq, ?_, ?_⟩
  · intro r h0
    unfold multiplierSpecRow
    rw [h0, mul_one]
  · intro r q hq
    unfold multiplierSpecRow
    rw [hq]

/-- C3 witness: a single-row multiplier table (unique keys hold trivially);
a row of another entity has an empty lookup and is returned unchanged. -/
theorem c3_multiplier_default_witness :
    (List.Pairwise (fun a b : MRow => a.iso_code ≠ b.iso_code ∨ a.year ≠ b.year)
      [{ iso_code := "FRA", year := 2024, mult := 9 / 10 }]) ∧
    (lookupMult [{ iso_code := "FRA", year := 2024, mult := (9 / 10 : ℚ) }] "USA" 2024
      = []) ∧
    (multiplierSpecRow [{ iso_code := "FRA", year := 2024, mult := 9 / 10 }]
        (fun _ => true) { blankRow with iso_code := "USA", year := 2024, value := 100 }
      = { blankRow with iso_code := "USA", year := 2024, value := 100 }) :=
  ⟨List.pairwise_singleton _ _,
    by decide,
    (c3_multiplier_default [{ iso_code := "FRA", year := 2024, mult := 9 / 10 }]
        (fun _ => true) [] (List.pairwise_singleton _ _)).2.1
      { blankRow with iso_code := "USA", year := 2024, value := 100 } (by decide)⟩

/- ## Claim C4: the time extender -/

lemma intRange_length (lo hi : ℤ) : (intRange lo hi).length = (hi - lo).toNat := by
  unfold intRange
  rw [List.length_map, List.length_range]

lemma mem_intRange {lo hi y : ℤ} : y ∈ intRange lo hi ↔ lo ≤ y ∧ y < hi := by
  unfold intRange
  constructor
  · intro h
    obtain ⟨k, hk, hky⟩ := List.mem_map.1 h
    have hkr := List.mem_range.1 hk
    omega
  · rintro ⟨h1, h2⟩
    exact List.mem_map.2 ⟨(y - lo).toNat, List.mem_range.2 (by omega), by omega⟩

/-- C4.  On a non-empty table with maximum year `L`: the extension keeps the
original rows unchanged in place, appends for each year `y` in `(L, target]`
a copy of every year-`L` row with `year := y` (and nothing else), adds no
rows when `target ≤ L`, and grows the row count by exactly
`(target - L) * count(rows at L)`. -/
theorem c4_time_extender (data : List Row) (target : ℤ) (h : data ≠ []) :
    ∃ L, maxYear data = some L ∧
      extendTable target data = some (extendRows L target data) ∧
      (extendRows L target data).take data.length = data ∧
      ((extendRows L target data).length
        = data.length
          + (target - L).toNat * (data.filter (fun r => r.year == L)).length) ∧
      (target ≤ L → extendRows L target data = data) ∧
      (∀ r ∈ (extendRows L target data).drop data.length,
        ∃ s ∈ data, s.year = L ∧ L < r.year ∧ r.year ≤ target ∧
          r = { s with year := r.year }) ∧
      (∀ y : ℤ, L < y → y ≤ target → ∀ s ∈ data, s.year = L →
        { s with year := y } ∈ extendRows L target data) := by
  obtain ⟨L, hL⟩ : ∃ L, maxYear data = some L := by
    cases data with
    | nil => exact absurd rfl h
    | cons r rs => exact ⟨_, rfl⟩
  refine ⟨L, hL, ?_, ?_, ?_, ?_, ?_, ?_⟩
  · simp [extendTable, hL]
  · exact List.take_left data _
  · unfold extendRows
    rw [List.length_append]
    have hlen : ((intRange (L + 1) (target + 1)).flatMap (fun y =>
        (data.filter (fun r => r.year == L)).map (fun r => { r with year := y }))).length
        = (intRange (L + 1) (target + 1)).length
          * (data.filter (fun r => r.year == L)).length := by
      apply flatMap_length_const
      intro y _
      exact List.length_map _ _
    rw [hlen, intRange_length]
    congr 2
    omega
  · intro hle
    unfold extendRows
    have hnil : intRange (L + 1) (target + 1) = [] := by
      unfold intRange
      rw [(by omega : (target + 1 - (L + 1)).toNat = 0)]
      rfl
    rw [hnil]
    simp
  · intro r hr
    unfold extendRows at hr
    rw [List.drop_left] at hr
    obtain ⟨y, hy, hr2⟩ := List.mem_flatMap.1 hr
    obtain ⟨s, hs, rfl⟩ := List.mem_map.1 hr2
    obtain ⟨hsmem, hsy⟩ := List.mem_filter.1 hs
    obtain ⟨hy1, hy2⟩ := mem_intRange.1 hy
    refine ⟨s, hsmem, beq_iff_eq.1 hsy, ?_, ?_, rfl⟩
    · show L < y
      omega
    · show y ≤ target
      omega
  · intro y hy1 hy2 s hs hsy
    unfold extendRows
    refine List.mem_append_right _ (List.mem_flatMap.2 ⟨y,
      mem_intRange.2 ⟨by omega, by omega⟩,
      List.mem_map.2 ⟨s, List.mem_filter.2 ⟨hs, beq_iff_eq.2 hsy⟩, rfl⟩⟩)

/-- C4 witness: a one-row table at year 0 extended to year 2 gains two rows. -/
theorem c4_time_extender_witness :
    ([blankRow] ≠ ([] : List Row)) ∧
    ∃ L, maxYear [blankRow] = some L ∧
      extendTable 2 [blankRow] = some (extendRows L 2 [blankRow]) ∧
      (extendRows L 2 [blankRow]).take 1 = [blankRow] ∧
      ((extendRows L 2 [blankRow]).length
        = 1 + (2 - L).toNat * ([blankRow].filter (fun r => r.year == L)).length) ∧
      ((2 : ℤ) ≤ L → extendRows L 2 [blankRow] = [blankRow]) ∧
      (∀ r ∈ (extendRows L 2 [blankRow]).drop 1,
        ∃ s ∈ [blankRow], s.year = L ∧ L < r.year ∧ r.year ≤ 2 ∧
          r = { s with year := r.year }) ∧
      (∀ y : ℤ, L < y → y ≤ 2 → ∀ s ∈ [blankRow], s.year = L →
        { s with year := y } ∈ extendRows L 2 [blankRow]) :=
  ⟨by decide, c4_time_extender [blankRow] 2 (by decide)⟩

/- ## Claim C5: historical rows under the scenario branches -/

/-- The folded maximum bounds the seed and every element. -/
lemma foldl_max_bounds (rs : List Row) (init : ℤ) :
    init ≤ rs.foldl (fun m x => max m x.year) init ∧
    ∀ x ∈ rs, x.year ≤ rs.foldl (fun m x => max m x.year) init := by
  induction rs generalizing init with
  | nil => exact ⟨le_refl _, by simp⟩
  | cons a rs ih =>
      simp only [List.foldl_cons]
      obtain ⟨h1, h2⟩ := ih (max init a.year)
      refine ⟨le_trans (le_max_left _ _) h1, ?_⟩
      intro x hx
      rcases List.mem_cons.1 hx with rfl | hx
      · exact le_trans (le_max_right _ _) h1
      · exact h2 x hx

/-- `maxYear` bounds every row's year. -/
lemma maxYear_le {data : List Row} {L : ℤ} (hL : maxYear data = some L) :
    ∀ r ∈ data, r.year ≤ L := by
  cases data with
  | nil => intro r hr; cases hr
  | cons a rs =>
      have hfold := Option.some.inj hL
      intro r hr
      rcases List.mem_cons.1 hr with rfl | hr
      · rw [← hfold]; exact (foldl_max_bounds rs r.year).1
      · rw [← hfold]; exact (foldl_max_bounds rs a.year).2 r hr

/-- The appended (projected) part of an extension only carries years in
`(latest, target]`. -/
lemma ext_part_year (L target : ℤ) (data : List Row) :
    ∀ s ∈ (intRange (L + 1) (target + 1)).flatMap (fun y =>
      (data.filter (fun r => r.year == L)).map (fun r => { r with year := y })),
      L < s.year ∧ s.year ≤ target := by
  intro s hs
  obtain ⟨y, hy, hs2⟩ := List.mem_flatMap.1 hs
  obtain ⟨u, hu, rfl⟩ := List.mem_map.1 hs2
  obtain ⟨h1, h2⟩ := mem_intRange.1 hy
  exact ⟨by show L < y; omega, by show y ≤ target; omega⟩

lemma linearReductionSpecRow_fields (latest target : ℤ) (p : ℚ)
    (mask : String → Bool) (r : Row) :
    (linearReductionSpecRow latest target p mask r).year = r.year ∧
    (linearReductionSpecRow latest target p mask r).iso_code = r.iso_code := by
  unfold linearReductionSpecRow
  split <;> exact ⟨rfl, rfl⟩

/-- An empty lookup for every row of a table makes the multiplier step the
identity on it. -/
lemma lookupMult_eq_nil_of (ms : List MRow) (iso : String) (y : ℤ)
    (h : ∀ m ∈ ms, m.year ≠ y) : lookupMult ms iso y = [] := by
  unfold lookupMult
  rw [List.filter_eq_nil_iff.2 (fun m hm hp => (h m hm) (mkey_eq hp).2)]
  rfl

lemma applyMultiplierStep_id (ms : List MRow) (mask : String → Bool) (d : List Row)
    (h : ∀ r ∈ d, lookupMult ms r.iso_code r.year = []) :
    applyMultiplierStep ms mask d = d := by
  unfold applyMultiplierStep
  rw [flatMap_eq_map_of_singleton d _ (fun r => { r with value := r.value * 1 })
    (fun r hr => by rw [h r hr])]
  apply map_id_of_mem
  intro r _
  rw [mul_one]

/-- Every output row of the multiplier step keeps the year and entity of a
source row. -/
lemma applyMultiplierStep_source (ms : List MRow) (mask : String → Bool)
    (d : List Row) :
    ∀ x ∈ applyMultiplierStep ms mask d,
      ∃ r ∈ d, x.year = r.year ∧ x.iso_code = r.iso_code := by
  intro x hx
  obtain ⟨r, hr, hx2⟩ := List.mem_flatMap.1 hx
  refine ⟨r, hr, ?_⟩
  revert hx2
  cases hq : lookupMult ms r.iso_code r.year with
  | nil =>
      intro hx2
      rw [List.mem_singleton] at hx2
      subst hx2
      exact ⟨rfl, rfl⟩
  | cons q qs =>
      intro hx2
      obtain ⟨q2, hq2, rfl⟩ := List.mem_map.1 hx2
      exact ⟨rfl, rfl⟩

/-- Every source row of the multiplier step yields an output row with its
year and entity. -/
lemma applyMultiplierStep_covers (ms : List MRow) (mask : String → Bool)
    (d : List Row) :
    ∀ r ∈ d, ∃ x ∈ applyMultiplierStep ms mask d,
      x.year = r.year ∧ x.iso_code = r.iso_code := by
  intro r hr
  unfold applyMultiplierStep
  cases hq : lookupMult ms r.iso_code r.year with
  | nil =>
      exact ⟨{ r with value := r.value * 1 },
        List.mem_flatMap.2 ⟨r, hr, by rw [hq]; exact List.mem_singleton.2 rfl⟩,
        rfl, rfl⟩
  | cons q qs =>
      exact ⟨{ r with value := r.value * (if mask r.indicator = true then q else 1) },
        List.mem_flatMap.2 ⟨r, hr, by rw [hq]; exact List.mem_map.2 ⟨q, by simp, rfl⟩⟩,
        rfl, rfl⟩

/-- C5 amended: historical rows (year at most the input's latest year) pass
through both scenario branches unchanged and in place, provided — in the
multiplier branch — the multiplier table carries no entry for a historical
year (as the pipeline's baseline-2023 construction guarantees); without that
proviso the multiplier branch rescales matched historical rows. -/
theorem c5_amended_historical_preserved (mask : String → Bool) (data : List Row)
    (target L : ℤ) (p : ℚ) (ms : List MRow)
    (hL : maxYear data = some L) (hms : ∀ m ∈ ms, L < m.year) :
    (∃ out, projectedScenarios mask p target data = some out ∧
      out.take data.length = data ∧ ∀ r ∈ out.drop data.length, L < r.year) ∧
    (∃ out, projectedScenariosWithMultiplier ms mask target data = some out ∧
      out.take data.length = data ∧ ∀ r ∈ out.drop data.length, L < r.year) := by
  have hyears := maxYear_le hL
  constructor
  · refine ⟨applyLinearReductionYears L target p mask (extendRows L target data),
      by simp [projectedScenarios, hL], ?_, ?_⟩
    · rw [applyLinearReductionYears_eq_map]
      unfold extendRows
      rw [List.map_append]
      have h1 : data.map (linearReductionSpecRow L target p mask) = data := by
        apply map_id_of_mem
        intro r hr
        unfold linearReductionSpecRow
        rw [if_neg]
        rintro ⟨_, hgt, _⟩
        exact absurd (hyears r hr) (by omega)
      rw [h1]
      exact List.take_left data _
    · rw [applyLinearReductionYears_eq_map]
      unfold extendRows
      rw [List.map_append]
      have h1 : data.map (linearReductionSpecRow L target p mask) = data := by
        apply map_id_of_mem
        intro r hr
        unfold linearReductionSpecRow
        rw [if_neg]
        rintro ⟨_, hgt, _⟩
        exact absurd (hyears r hr) (by omega)
      rw [h1, List.drop_left]
      intro r hr
      obtain ⟨s, hs, rfl⟩ := List.mem_map.1 hr
      rw [(linearReductionSpecRow_fields L target p mask s).1]
      exact (ext_part_year L target data s hs).1
  · refine ⟨applyMultiplierStep ms mask (extendRows L target data),
      by simp [projectedScenariosWithMultiplier, hL], ?_, ?_⟩
    · unfold extendRows applyMultiplierStep
      rw [List.flatMap_append]
      have h1 : data.flatMap (fun r =>
          match lookupMult ms r.iso_code r.year with
          | [] => [{ r with value := r.value * 1 }]
          | qs => qs.map (fun q =>
              { r with value := r.value * (if mask r.indicator = true then q else 1) }))
          = data := by
        have := applyMultiplierStep_id ms mask data (fun r hr =>
          lookupMult_eq_nil_of ms r.iso_code r.year
            (fun m hm hy => absurd (hyears r hr) (by have := hms m hm; omega)))
        exact this
      rw [h1]
      exact List.take_left data _
    · unfold extendRows applyMultiplierStep
      rw [List.flatMap_append]
      have h1 : data.flatMap (fun r =>
          match lookupMult ms r.iso_code r.year with
          | [] => [{ r with value := r.value * 1 }]
          | qs => qs.map (fun q =>
              { r with value := r.value * (if mask r.indicator = true then q else 1) }))
          = data := by
        have := applyMultiplierStep_id ms mask data (fun r hr =>
          lookupMult_eq_nil_of ms r.iso_code r.year
            (fun m hm hy => absurd (hyears r hr) (by have := hms m hm; omega)))
        exact this
      rw [h1, List.drop_left]
      intro r hr
      obtain ⟨s, hs, hsy, _⟩ := applyMultiplierStep_source ms mask _ r hr
      rw [hsy]
      exact (ext_part_year L target data s hs).1

/-- C5 counterexample: the multiplier branch rescales a historical row.  With
one input row (FRA, 2023, value 100) — 2023 is the latest year, hence
historical — and a multiplier entry (FRA, 2023, 0.5), the projection to 2024
returns the historical row with value 50, not 100. -/
theorem c5_counterexample :
    projectedScenariosWithMultiplier [{ iso_code := "FRA", year := 2023, mult := 1 / 2 }]
        (fun _ => true) 2024
        [{ blankRow with iso_code := "FRA", year := 2023, value := 100 }]
      = some [{ blankRow with iso_code := "FRA", year := 2023, value := 50 },
              { blankRow with iso_code := "FRA", year := 2024, value := 100 }] ∧
    (50 : ℚ) ≠ 100 := by
  refine ⟨?_, by norm_num⟩
  have hr1 : List.range 1 = [0] := rfl
  norm_num [projectedScenariosWithMultiplier, maxYear, extendRows, intRange,
    applyMultiplierStep, lookupMult, blankRow, Row.mk.injEq, hr1,
    List.flatMap_cons, List.flatMap_nil]

/-- C5 witness: a single latest-year row with a strictly-future multiplier
table satisfies the amended theorem's hypotheses. -/
theorem c5_amended_historical_preserved_witness :
    (maxYear [{ blankRow with iso_code := "FRA", year := 2023, value := 100 }]
      = some 2023) ∧
    (∀ m ∈ ([{ iso_code := "FRA", year := 2024, mult := (1 / 2 : ℚ) }] : List MRow),
      (2023 : ℤ) < m.year) ∧
    ((∃ out, projectedScenarios (fun _ => true) 0 2027
          [{ blankRow with iso_code := "FRA", year := 2023, value := 100 }] = some out ∧
        out.take [{ blankRow with iso_code := "FRA", year := 2023, value := 100 }].length
          = [{ blankRow with iso_code := "FRA", year := 2023, value := 100 }] ∧
        ∀ r ∈ out.drop [{ blankRow with iso_code := "FRA", year := 2023, value := 100 }].length,
          (2023 : ℤ) < r.year) ∧
     (∃ out, projectedScenariosWithMultiplier
          [{ iso_code := "FRA", year := 2024, mult := (1 / 2 : ℚ) }] (fun _ => true) 2027
          [{ blankRow with iso_code := "FRA", year := 2023, value := 100 }] = some out ∧
        out.take [{ blankRow with iso_code := "FRA", year := 2023, value := 100 }].length
          = [{ blankRow with iso_code := "FRA", year := 2023, value := 100 }] ∧
        ∀ r ∈ out.drop [{ blankRow with iso_code := "FRA", year := 2023, value := 100 }].length,
          (2023 : ℤ) < r.year)) :=
  ⟨by decide, by decide,
    c5_amended_historical_preserved (fun _ => true)
      [{ blankRow with iso_code := "FRA", year := 2023, value := 100 }] 2027 2023 0
      [{ iso_code := "FRA", year := 2024, mult := (1 / 2 : ℚ) }]
      (by decide) (by decide)⟩

/- ## Claim C2: composer partition completeness -/

/-- A fold of `max` over rows that all carry year `L`, seeded with `L`. -/
lemma foldl_max_all (rs : List Row) (L : ℤ) (h : ∀ r ∈ rs, r.year = L)
    (init : ℤ) (hi : init = L) :
    rs.foldl (fun m x => max m x.year) init = L := by
  induction rs generalizing init with
  | nil => simpa using hi
  | cons a rs ih =>
      simp only [List.foldl_cons]
      apply ih (fun r hr => h r (by simp [hr]))
      rw [hi, h a (by simp)]
      exact max_self L

/-- A non-empty single-year table has that year as its maximum. -/
lemma maxYear_all_eq (data : List Row) (L : ℤ) (hne : data ≠ [])
    (h : ∀ r ∈ data, r.year = L) : maxYear data = some L := by
  cases data with
  | nil => exact absurd rfl hne
  | cons a rs =>
      show some (rs.foldl (fun m x => max m x.year) a.year) = some L
      rw [foldl_max_all rs L (fun r hr => h r (by simp [hr])) a.year (h a (by simp))]

/-- Every extended row inherits its entity from some input row. -/
lemma extendRows_source (L t : ℤ) (d : List Row) :
    ∀ s ∈ extendRows L t d, ∃ u ∈ d, s.iso_code = u.iso_code := by
  intro s hs
  rcases List.mem_append.1 hs with hs | hs
  · exact ⟨s, hs, rfl⟩
  · obtain ⟨y, hy, hs2⟩ := List.mem_flatMap.1 hs
    obtain ⟨u, hu, rfl⟩ := List.mem_map.1 hs2
    exact ⟨u, (List.mem_filter.1 hu).1, rfl⟩

/-- On a single-year table, extension provides every entity at every year of
`[L, t]`. -/
lemma extendRows_covers (L t : ℤ) (d : List Row) (hyrs : ∀ r ∈ d, r.year = L) :
    ∀ r0 ∈ d, ∀ y : ℤ, L ≤ y → y ≤ t →
      ∃ s ∈ extendRows L t d, s.year = y ∧ s.iso_code = r0.iso_code := by
  intro r0 hr0 y h1 h2
  by_cases hyL : y = L
  · exact ⟨r0, List.mem_append_left _ hr0, by rw [hyrs r0 hr0, hyL], rfl⟩
  · refine ⟨{ r0 with year := y }, List.mem_append_right _ (List.mem_flatMap.2
      ⟨y, mem_intRange.2 ⟨by omega, by omega⟩,
        List.mem_map.2 ⟨r0, List.mem_filter.2 ⟨hr0, beq_iff_eq.2 (hyrs r0 hr0)⟩, rfl⟩⟩),
      rfl, rfl⟩

/-- The partition / project / concatenate core preserves the entity set at
every year from `L` through 2027, given a single-year input and three
non-empty partitions. -/
lemma composeWith_sets (seekTab : List MRow) (mask : String → Bool)
    (usReduce restReduce : ℚ) (data : List Row) (L : ℤ)
    (hyears : ∀ r ∈ data, r.year = L) (hL : L ≤ 2027)
    (hseek : ∃ r ∈ data, isSeekRow seekTab r = true)
    (hus : ∃ r ∈ data, isSeekRow seekTab r = false ∧ r.iso_code = "USA")
    (hrest : ∃ r ∈ data, isSeekRow seekTab r = false ∧ r.iso_code ≠ "USA") :
    ∃ out, composeWith seekTab mask usReduce restReduce data = some out ∧
      ∀ y : ℤ, L ≤ y → y ≤ 2027 → ∀ iso : String,
        (∃ r ∈ out, r.year = y ∧ r.iso_code = iso) ↔
          (∃ r ∈ data, r.iso_code = iso) := by
  classical
  -- the three partitions as they appear in `composeWith`
  have hSsub : (data.filter fun r => isSeekRow seekTab r) ⊆ data :=
    fun r hr => (List.mem_filter.1 hr).1
  have hOsub : (data.filter fun r => !isSeekRow seekTab r) ⊆ data :=
    fun r hr => (List.mem_filter.1 hr).1
  have hUsub : ((data.filter fun r => !isSeekRow seekTab r).filter
      fun r => r.iso_code == "USA") ⊆ data :=
    fun r hr => hOsub (List.mem_filter.1 hr).1
  have hRsub : ((data.filter fun r => !isSeekRow seekTab r).filter
      fun r => !(r.iso_code == "USA")) ⊆ data :=
    fun r hr => hOsub (List.mem_filter.1 hr).1
  -- non-emptiness of the partitions
  obtain ⟨rS, hrS, hrSp⟩ := hseek
  obtain ⟨rU, hrU, hrUp, hrUiso⟩ := hus
  obtain ⟨rR, hrR, hrRp, hrRiso⟩ := hrest
  have hrSmem : rS ∈ data.filter fun r => isSeekRow seekTab r :=
    List.mem_filter.2 ⟨hrS, hrSp⟩
  have hrUmem : rU ∈ (data.filter fun r => !isSeekRow seekTab r).filter
      fun r => r.iso_code == "USA" :=
    List.mem_filter.2 ⟨List.mem_filter.2 ⟨hrU, by rw [hrUp]; rfl⟩, beq_iff_eq.2 hrUiso⟩
  have hrRmem : rR ∈ (data.filter fun r => !isSeekRow seekTab r).filter
      fun r => !(r.iso_code == "USA") :=
    List.mem_filter.2 ⟨List.mem_filter.2 ⟨hrR, by rw [hrRp]; rfl⟩,
      by simp [hrRiso]⟩
  -- each partition is a single-year non-empty table
  have hmS : maxYear (data.filter fun r => isSeekRow seekTab r) = some L :=
    maxYear_all_eq _ L (List.ne_nil_of_mem hrSmem) (fun r hr => hyears r (hSsub hr))
  have hmU : maxYear ((data.filter fun r => !isSeekRow seekTab r).filter
      fun r => r.iso_code == "USA") = some L :=
    maxYear_all_eq _ L (List.ne_nil_of_mem hrUmem) (fun r hr => hyears r (hUsub hr))
  have hmR : maxYear ((data.filter fun r => !isSeekRow seekTab r).filter
      fun r => !(r.iso_code == "USA")) = some L :=
    maxYear_all_eq _ L (List.ne_nil_of_mem hrRmem) (fun r hr => hyears r (hRsub hr))
  -- each branch projects
  have hS : projectedScenariosWithMultiplier seekTab mask 2027
      (data.filter fun r => isSeekRow seekTab r)
      = some (applyMultiplierStep seekTab mask
          (extendRows L 2027 (data.filter fun r => isSeekRow seekTab r))) := by
    unfold projectedScenariosWithMultiplier
    rw [hmS]
  have hU : projectedScenarios mask usReduce 2027
      ((data.filter fun r => !isSeekRow seekTab r).filter fun r => r.iso_code == "USA")
      = some (applyLinearReductionYears L 2027 usReduce mask
          (extendRows L 2027 ((data.filter fun r => !isSeekRow seekTab r).filter
            fun r => r.iso_code == "USA"))) := by
    unfold projectedScenarios
    rw [hmU]
  have hR : projectedScenarios mask restReduce 2027
      ((data.filter fun r => !isSeekRow seekTab r).filter fun r => !(r.iso_code == "USA"))
      = some (applyLinearReductionYears L 2027 restReduce mask
          (extendRows L 2027 ((data.filter fun r => !isSeekRow seekTab r).filter
            fun r => !(r.iso_code == "USA")))) := by
    unfold projectedScenarios
    rw [hmR]
  refine ⟨_, by simp only [composeWith]; rw [hS, hU, hR], ?_⟩
  intro y hy1 hy2 iso
  constructor
  · rintro ⟨r, hr, hry, rfl⟩
    rcases List.mem_append.1 hr with hr | hr
    · rcases List.mem_append.1 hr with hr | hr
      · obtain ⟨s, hs, hsy, hsiso⟩ := applyMultiplierStep_source seekTab mask _ r hr
        obtain ⟨u, hu, huiso⟩ := extendRows_source L 2027 _ s hs
        exact ⟨u, hSsub hu, by rw [← huiso, ← hsiso]⟩
      · rw [applyLinearReductionYears_eq_map] at hr
        obtain ⟨s, hs, rfl⟩ := List.mem_map.1 hr
        obtain ⟨u, hu, huiso⟩ := extendRows_source L 2027 _ s hs
        exact ⟨u, hUsub hu,
          by rw [(linearReductionSpecRow_fields L 2027 usReduce mask s).2, huiso]⟩
    · rw [applyLinearReductionYears_eq_map] at hr
      obtain ⟨s, hs, rfl⟩ := List.mem_map.1 hr
      obtain ⟨u, hu, huiso⟩ := extendRows_source L 2027 _ s hs
      exact ⟨u, hRsub hu,
        by rw [(linearReductionSpecRow_fields L 2027 restReduce mask s).2, huiso]⟩
  · rintro ⟨r0, hr0, rfl⟩
    by_cases hp : isSeekRow seekTab r0 = true
    · have hr0S : r0 ∈ data.filter fun r => isSeekRow seekTab r :=
        List.mem_filter.2 ⟨hr0, hp⟩
      obtain ⟨s, hs, hsy, hsiso⟩ := extendRows_covers L 2027 _
        (fun r hr => hyears r (hSsub hr)) r0 hr0S y hy1 hy2
      obtain ⟨x, hx, hxy, hxiso⟩ := applyMultiplierStep_covers seekTab mask _ s hs
      exact ⟨x, List.mem_append_left _ (List.mem_append_left _ hx),
        by rw [hxy, hsy], by rw [hxiso, hsiso]⟩
    · have hp2 : isSeekRow seekTab r0 = false := by
        cases h : isSeekRow seekTab r0
        · rfl
        · exact absurd h hp
      by_cases hiso : r0.iso_code = "USA"
      · have hr0U : r0 ∈ (data.filter fun r => !isSeekRow seekTab r).filter
            fun r => r.iso_code == "USA" :=
          List.mem_filter.2 ⟨List.mem_filter.2 ⟨hr0, by rw [hp2]; rfl⟩,
            beq_iff_eq.2 hiso⟩
        obtain ⟨s, hs, hsy, hsiso⟩ := extendRows_covers L 2027 _
          (fun r hr => hyears r (hUsub hr)) r0 hr0U y hy1 hy2
        refine ⟨linearReductionSpecRow L 2027 usReduce mask s,
          List.mem_append_left _ (List.mem_append_right _ ?_), ?_, ?_⟩
        · rw [applyLinearReductionYears_eq_map]
          exact List.mem_map.2 ⟨s, hs, rfl⟩
        · rw [(linearReductionSpecRow_fields L 2027 usReduce mask s).1, hsy]
        · rw [(linearReductionSpecRow_fields L 2027 usReduce mask s).2, hsiso]
      · have hr0R : r0 ∈ (data.filter fun r => !isSeekRow seekTab r).filter
            fun r => !(r.iso_code == "USA") :=
          List.mem_filter.2 ⟨List.mem_filter.2 ⟨hr0, by rw [hp2]; rfl⟩,
            by simp [hiso]⟩
        obtain ⟨s, hs, hsy, hsiso⟩ := extendRows_covers L 2027 _
          (fun r hr => hyears r (hRsub hr)) r0 hr0R y hy1 hy2
        refine ⟨linearReductionSpecRow L 2027 restReduce mask s,
          List.mem_append_right _ ?_, ?_, ?_⟩
        · rw [applyLinearReductionYears_eq_map]
          exact List.mem_map.2 ⟨s, hs, rfl⟩
        · rw [(linearReductionSpecRow_fields L 2027 restReduce mask s).1, hsy]
        · rw [(linearReductionSpecRow_fields L 2027 restReduce mask s).2, hsiso]

/-- Reducing the multiplier table does not change which entities it lists. -/
lemma applyLinearReductionM_isSeek (d : List MRow) (red : ℚ) (s e : ℤ)
    (out : List MRow) (hout : applyLinearReductionM d red s e = some out) (r : Row) :
    isSeekRow out r = isSeekRow d r := by
  by_cases hc : e - s + 1 ≤ 0
  · exfalso
    simp only [applyLinearReductionM] at hout
    rw [if_pos hc] at hout
    exact Option.noConfusion hout
  · simp only [applyLinearReductionM] at hout
    rw [if_neg hc] at hout
    have hmap := Option.some.inj hout
    subst hmap
    unfold isSeekRow
    rw [List.any_map]
    congr 1
    funext m
    simp only [Function.comp_apply]
    split_ifs <;> rfl

/-- C2 amended: for a supported scenario, a single-latest-year input (as the
pipeline feeds the composer) whose three partitions — custom-multiplier
entities, USA, the rest — are all non-empty, the composer succeeds, and the
entity set of the concatenated output at every year from the latest year
through 2027 equals the input's entity set.  (When a partition is empty the
underlying projection raises instead, see the counterexample.) -/
theorem c2_amended_partition_completeness (seek : List MRow) (mask : String → Bool)
    (scenario : ℤ) (data : List Row) (L : ℤ)
    (hsc : scenario = 2 ∨ scenario = 3)
    (hyears : ∀ r ∈ data, r.year = L) (hL : L ≤ 2027)
    (hseek : ∃ r ∈ data, isSeekRow seek r = true)
    (hus : ∃ r ∈ data, isSeekRow seek r = false ∧ r.iso_code = "USA")
    (hrest : ∃ r ∈ data, isSeekRow seek r = false ∧ r.iso_code ≠ "USA") :
    ∃ out, composeScenario seek mask scenario data = some out ∧
      ∀ y : ℤ, L ≤ y → y ≤ 2027 → ∀ iso : String,
        (∃ r ∈ out, r.year = y ∧ r.iso_code = iso) ↔
          (∃ r ∈ data, r.iso_code = iso) := by
  rcases hsc with rfl | rfl
  · obtain ⟨out, hout, hsets⟩ :=
      composeWith_sets seek mask 60 0 data L hyears hL hseek hus hrest
    refine ⟨out, ?_, hsets⟩
    simpa only [composeScenario] using hout
  · have hredsome : ∃ seekR, applyLinearReductionM seek (1 / 10) 2025 2027 = some seekR := by
      simp only [applyLinearReductionM]
      rw [if_neg (by norm_num)]
      exact ⟨_, rfl⟩
    obtain ⟨seekR, hseekR⟩ := hredsome
    have htrans : ∀ r : Row, isSeekRow seekR r = isSeekRow seek r :=
      applyLinearReductionM_isSeek seek (1 / 10) 2025 2027 seekR hseekR
    obtain ⟨out, hout, hsets⟩ := composeWith_sets seekR mask 80 10 data L hyears hL
      (hseek.imp (fun r hr => ⟨hr.1, by rw [htrans r]; exact hr.2⟩))
      (hus.imp (fun r hr => ⟨hr.1, by rw [htrans r]; exact hr.2.1, hr.2.2⟩))
      (hrest.imp (fun r hr => ⟨hr.1, by rw [htrans r]; exact hr.2.1, hr.2.2⟩))
    refine ⟨out, ?_, hsets⟩
    simp only [composeScenario]
    rw [hseekR]
    exact hout

/-- C2 counterexample: with an input containing no entity of the
decreasing-entities table (here one FRA row against a DEU-only table),
the seek partition is empty, its `year` maximum is undefined, and the
composer raises instead of returning a table — so the claim fails for this
input table even though scenario 2 is supported. -/
theorem c2_counterexample :
    composeScenario [{ iso_code := "DEU", year := 2024, mult := 9 / 10 }]
        (fun _ => true) 2
        [{ blankRow with iso_code := "FRA", year := 2023, value := 100 }] = none := by
  decide

/-- C2 witness: a three-row single-year input with all three partitions
inhabited, under scenario 2. -/
theorem c2_amended_partition_completeness_witness :
    ((2 : ℤ) = 2 ∨ (2 : ℤ) = 3) ∧
    (∀ r ∈ ([{ blankRow with iso_code := "DEU", year := 2023 },
              { blankRow with iso_code := "USA", year := 2023 },
              { blankRow with iso_code := "FRA", year := 2023 }] : List Row),
      r.year = 2023) ∧
    ((2023 : ℤ) ≤ 2027) ∧
    (∃ r ∈ ([{ blankRow with iso_code := "DEU", year := 2023 },
              { blankRow with iso_code := "USA", year := 2023 },
              { blankRow with iso_code := "FRA", year := 2023 }] : List Row),
      isSeekRow [{ iso_code := "DEU", year := 2024, mult := (9 / 10 : ℚ) }] r = true) ∧
    (∃ out, composeScenario [{ iso_code := "DEU", year := 2024, mult := (9 / 10 : ℚ) }]
        (fun _ => true) 2
        [{ blankRow with iso_code := "DEU", year := 2023 },
         { blankRow with iso_code := "USA", year := 2023 },
         { blankRow with iso_code := "FRA", year := 2023 }] = some out ∧
      ∀ y : ℤ, (2023 : ℤ) ≤ y → y ≤ 2027 → ∀ iso : String,
        (∃ r ∈ out, r.year = y ∧ r.iso_code = iso) ↔
          (∃ r ∈ ([{ blankRow with iso_code := "DEU", year := 2023 },
                    { blankRow with iso_code := "USA", year := 2023 },
                    { blankRow with iso_code := "FRA", year := 2023 }] : List Row),
            r.iso_code = iso)) :=
  ⟨Or.inl rfl, by decide, by decide, by decide,
    c2_amended_partition_completeness
      [{ iso_code := "DEU", year := 2024, mult := (9 / 10 : ℚ) }] (fun _ => true) 2
      [{ blankRow with iso_code := "DEU", year := 2023 },
       { blankRow with iso_code := "USA", year := 2023 },
       { blankRow with iso_code := "FRA", year := 2023 }] 2023
      (Or.inl rfl) (by decide) (by decide) (by decide) (by decide) (by decide)⟩

/- ## Claim C9: period averaging -/

/-- The period-assignment fold either keeps its seed (no period matches) or
returns the name of a matching period. -/
lemma assignFold_cases (periods : List PeriodDef) (y : ℤ) (acc : Option String) :
    (periods.foldl (fun acc p =>
        if p.startYear ≤ y ∧ y ≤ p.endYear then some p.name else acc) acc = acc
      ∧ ∀ p ∈ periods, ¬(p.startYear ≤ y ∧ y ≤ p.endYear)) ∨
    ∃ p ∈ periods, (p.startYear ≤ y ∧ y ≤ p.endYear) ∧
      periods.foldl (fun acc p =>
        if p.startYear ≤ y ∧ y ≤ p.endYear then some p.name else acc) acc
        = some p.name := by
  induction periods generalizing acc with
  | nil => exact Or.inl ⟨rfl, by simp⟩
  | cons q qs ih =>
      by_cases hq : q.startYear ≤ y ∧ y ≤ q.endYear
      · rcases ih (some q.name) with ⟨h1, h2⟩ | ⟨p, hp, hpy, h3⟩
        · exact Or.inr ⟨q, by simp, hq,
            by simp only [List.foldl_cons, if_pos hq]; exact h1⟩
        · exact Or.inr ⟨p, by simp [hp], hpy,
            by simp only [List.foldl_cons, if_pos hq]; exact h3⟩
      · rcases ih acc with ⟨h1, h2⟩ | ⟨p, hp, hpy, h3⟩
        · refine Or.inl ⟨by simp only [List.foldl_cons, if_neg hq]; exact h1, ?_⟩
          intro p hp
          rcases List.mem_cons.1 hp with rfl | hp
          · exact hq
          · exact h2 p hp
        · exact Or.inr ⟨p, by simp [hp], hpy,
            by simp only [List.foldl_cons, if_neg hq]; exact h3⟩

/-- Disjoint periods cannot both contain a year unless they are the same
entry. -/
lemma period_match_unique (periods : List PeriodDef)
    (Hdisj : List.Pairwise (fun p q =>
      p.endYear < q.startYear ∨ q.endYear < p.startYear) periods)
    (P Q : PeriodDef) (hP : P ∈ periods) (hQ : Q ∈ periods) (y : ℤ)
    (hyP : P.startYear ≤ y ∧ y ≤ P.endYear)
    (hyQ : Q.startYear ≤ y ∧ y ≤ Q.endYear) : P = Q := by
  by_contra hne
  have hsymm : Symmetric (fun p q : PeriodDef =>
      p.endYear < q.startYear ∨ q.endYear < p.startYear) :=
    fun p q h => h.symm
  have hR := Hdisj.forall hsymm hP hQ hne
  rcases hR with h | h <;> omega

/-- Distinct period names identify entries. -/
lemma period_name_inj (periods : List PeriodDef)
    (Hnames : List.Pairwise (fun p q => p.name ≠ q.name) periods)
    (P Q : PeriodDef) (hP : P ∈ periods) (hQ : Q ∈ periods)
    (h : P.name = Q.name) : P = Q := by
  by_contra hne
  have hsymm : Symmetric (fun p q : PeriodDef => p.name ≠ q.name) :=
    fun p q hpq he => hpq he.symm
  exact (Hnames.forall hsymm hP hQ hne) h

/-- With disjoint periods, a year inside a listed period is assigned exactly
that period's name. -/
lemma assignPeriod_of_mem (periods : List PeriodDef)
    (Hdisj : List.Pairwise (fun p q =>
      p.endYear < q.startYear ∨ q.endYear < p.startYear) periods)
    (P : PeriodDef) (hP : P ∈ periods) (y : ℤ)
    (hy : P.startYear ≤ y ∧ y ≤ P.endYear) :
    assignPeriod periods y = some P.name := by
  rcases assignFold_cases periods y none with ⟨h1, h2⟩ | ⟨p, hp, hpy, h3⟩
  · exact absurd hy (h2 P hP)
  · have hpP : p = P := period_match_unique periods Hdisj p P hp hP y hpy hy
    rw [← hpP]
    exact h3

/-- An assignment result names a listed period containing the year. -/
lemma assignPeriod_some (periods : List PeriodDef) (y : ℤ) (nm : String)
    (h : assignPeriod periods y = some nm) :
    ∃ p ∈ periods, (p.startYear ≤ y ∧ y ≤ p.endYear) ∧ p.name = nm := by
  rcases assignFold_cases periods y none with ⟨h1, _⟩ | ⟨p, hp, hpy, h3⟩
  · rw [show assignPeriod periods y = none from h1] at h
    exact Option.noConfusion h
  · rw [show assignPeriod periods y = some p.name from h3] at h
    exact ⟨p, hp, hpy, Option.some.inj h⟩

/-- With unique names, the divisor looked up for a listed period is that
period's declared length. -/
lemma find?_period_name (periods : List PeriodDef)
    (Hnames : List.Pairwise (fun p q => p.name ≠ q.name) periods)
    (P : PeriodDef) (hP : P ∈ periods) :
    periods.find? (fun p => p.name == P.name) = some P := by
  cases hfind : periods.find? (fun p => p.name == P.name) with
  | none =>
      have := List.find?_eq_none.1 hfind P hP
      simp at this
  | some Q =>
      have hQmem := List.mem_of_find?_eq_some hfind
      have hq := List.find?_some hfind
      have hQname : Q.name = P.name := beq_iff_eq.1 hq
      rw [period_name_inj periods Hnames Q P hQmem hP hQname]

/-- The group total over the assigned, period-labelled rows equals the total
over the input rows lying in the period's range with the matching key. -/
lemma assigned_filter_sum (periods : List PeriodDef)
    (Hdisj : List.Pairwise (fun p q =>
      p.endYear < q.startYear ∨ q.endYear < p.startYear) periods)
    (Hnames : List.Pairwise (fun p q => p.name ≠ q.name) periods)
    (P : PeriodDef) (hP : P ∈ periods) (data : List Row)
    (k : String × String × String × String × String × String)
    (hk1 : k.1 = P.name) :
    (((periodAssigned periods data).filter
        (fun pr => decide (periodKey pr = k))).map (fun pr => pr.2.value)).sum
      = ((data.filter (fun r =>
          decide ((P.startYear ≤ r.year ∧ r.year ≤ P.endYear) ∧ rowKey r = k.2))).map
            Row.value).sum := by
  induction data with
  | nil => rfl
  | cons r rs ih =>
      cases hassign : assignPeriod periods r.year with
      | none =>
          have h1 : periodAssigned periods (r :: rs) = periodAssigned periods rs := by
            unfold periodAssigned
            rw [List.filterMap_cons, hassign]
            rfl
          have h2 : ¬((P.startYear ≤ r.year ∧ r.year ≤ P.endYear) ∧ rowKey r = k.2) := by
            rintro ⟨hy, _⟩
            rw [assignPeriod_of_mem periods Hdisj P hP r.year hy] at hassign
            exact Option.noConfusion hassign
          rw [h1, List.filter_cons, if_neg (by simpa using h2)]
          exact ih
      | some p =>
          have h1 : periodAssigned periods (r :: rs)
              = (p, r) :: periodAssigned periods rs := by
            unfold periodAssigned
            rw [List.filterMap_cons, hassign]
            rfl
          by_cases hkey : periodKey (p, r) = k
          · have hpP : p = P.name := by
              have := congrArg Prod.fst hkey
              rw [hk1] at this
              exact this
            have hk2 : rowKey r = k.2 := congrArg Prod.snd hkey
            have hrange : P.startYear ≤ r.year ∧ r.year ≤ P.endYear := by
              obtain ⟨Q, hQ, hQy, hQname⟩ := assignPeriod_some periods r.year p hassign
              have hQP : Q = P := period_name_inj periods Hnames Q P hQ hP
                (by rw [hQname, hpP])
              rw [hQP] at hQy
              exact hQy
            rw [h1, List.filter_cons, if_pos (by simpa using hkey),
              List.map_cons, List.sum_cons,
              List.filter_cons, if_pos (by simpa using And.intro hrange hk2),
              List.map_cons, List.sum_cons, ih]
          · have h2 : ¬((P.startYear ≤ r.year ∧ r.year ≤ P.endYear) ∧ rowKey r = k.2) := by
              rintro ⟨hy, hkk⟩
              have ha2 := assignPeriod_of_mem periods Hdisj P hP r.year hy
              rw [hassign] at ha2
              have hpP : p = P.name := Option.some.inj ha2
              apply hkey
              show (p, rowKey r) = k
              rw [hpP, ← hk1, hkk, Prod.mk.eta]
            rw [h1, List.filter_cons, if_neg (by simpa using hkey),
              List.filter_cons, if_neg (by simpa using h2)]
            exact ih

/-- C9.  With pairwise-disjoint declared year ranges and distinct period
names: every output row of the period averaging belongs to a declared
period, its group is inhabited by an input row of that period's range and
key, and its value is the sum of the values of exactly the input rows in the
period's declared range with the matching key, divided by the period's
declared explicit length and rounded to 2 decimals; every input row inside a
declared range is represented in the output; rows in no declared range are
dropped (only in-range rows are summed); and a declared length of 5 with a
summed value of 100 yields exactly 20.00. -/
theorem c9_period_averaging (periods : List PeriodDef) (data : List Row)
    (Hdisj : List.Pairwise (fun p q =>
      p.endYear < q.startYear ∨ q.endYear < p.startYear) periods)
    (Hnames : List.Pairwise (fun p q => p.name ≠ q.name) periods) :
    (∀ pr ∈ debtServiceByPeriod periods data,
      ∃ P ∈ periods, pr.period = P.name ∧
        (∃ r ∈ data, (P.startYear ≤ r.year ∧ r.year ≤ P.endYear) ∧
          rowKey r = (pr.country, pr.continent, pr.income_level, pr.prices,
            pr.counterpart_type)) ∧
        pr.value = round2 ((((data.filter (fun r =>
          decide ((P.startYear ≤ r.year ∧ r.year ≤ P.endYear) ∧
            rowKey r = (pr.country, pr.continent, pr.income_level, pr.prices,
              pr.counterpart_type)))).map Row.value).sum) / P.periodLength)) ∧
    (∀ P ∈ periods, ∀ r ∈ data, P.startYear ≤ r.year → r.year ≤ P.endYear →
      ∃ pr ∈ debtServiceByPeriod periods data, pr.period = P.name ∧
        rowKey r = (pr.country, pr.continent, pr.income_level, pr.prices,
          pr.counterpart_type)) ∧
    round2 ((100 : ℚ) / 5) = 20 := by
  refine ⟨?_, ?_, ?_⟩
  · intro pr hpr
    simp only [debtServiceByPeriod] at hpr
    obtain ⟨k, hk, rfl⟩ := List.mem_map.1 hpr
    obtain ⟨pr0, hpr0, hpk⟩ := List.mem_map.1 (List.mem_dedup.1 hk)
    obtain ⟨r0, hr0, hfr0⟩ := List.mem_filterMap.1 hpr0
    cases hassign : assignPeriod periods r0.year with
    | none =>
        rw [hassign] at hfr0
        exact Option.noConfusion hfr0
    | some p =>
        rw [hassign] at hfr0
        have hpr0eq : pr0 = (p, r0) := (Option.some.inj hfr0).symm
        subst hpr0eq
        obtain ⟨P, hP, hPy, hPname⟩ := assignPeriod_some periods r0.year p hassign
        have hk1 : k.1 = P.name := by rw [← hpk]; exact hPname.symm
        refine ⟨P, hP, ?_, ⟨r0, hr0, hPy, by rw [← hpk]; rfl⟩, ?_⟩
        · show k.1 = P.name
          exact hk1
        · have hlen : ((periods.find? (fun q => q.name == k.1)).map
              (fun q => q.periodLength)).getD 0 = P.periodLength := by
            rw [hk1, find?_period_name periods Hnames P hP]
            rfl
          have hsum := assigned_filter_sum periods Hdisj Hnames P hP data k hk1
          show round2 ((((periodAssigned periods data).filter
              (fun pr => decide (periodKey pr = k))).map (fun pr => pr.2.value)).sum
            / ((periods.find? (fun q => q.name == k.1)).map
                (fun q => q.periodLength)).getD 0) = _
          rw [hlen, hsum]
  · intro P hP r hr h1 h2
    have hassign : assignPeriod periods r.year = some P.name :=
      assignPeriod_of_mem periods Hdisj P hP r.year ⟨h1, h2⟩
    have hmem : (P.name, r) ∈ periodAssigned periods data :=
      List.mem_filterMap.2 ⟨r, hr, by rw [hassign]; rfl⟩
    have hkd : periodKey (P.name, r) ∈ ((periodAssigned periods data).map periodKey).dedup :=
      List.mem_dedup.2 (List.mem_map.2 ⟨_, hmem, rfl⟩)
    simp only [debtServiceByPeriod]
    exact ⟨_, List.mem_map.2 ⟨periodKey (P.name, r), hkd, rfl⟩, rfl, rfl⟩
  · norm_num [round2, roundHalfEven, qfloor]

/-- C9 witness: one period "2018-2022" of declared length 5 over two rows
with values 60 and 40 (sum 100); the hypotheses hold for the singleton
period list and the theorem applies; the output value is exactly 20. -/
theorem c9_period_averaging_witness :
    (List.Pairwise (fun p q : PeriodDef =>
        p.endYear < q.startYear ∨ q.endYear < p.startYear)
      [{ name := "2018-2022", startYear := 2018, endYear := 2022, periodLength := 5 }]) ∧
    (List.Pairwise (fun p q : PeriodDef => p.name ≠ q.name)
      [{ name := "2018-2022", startYear := 2018, endYear := 2022, periodLength := 5 }]) ∧
    ((∀ pr ∈ debtServiceByPeriod
        [{ name := "2018-2022", startYear := 2018, endYear := 2022, periodLength := 5 }]
        [{ blankRow with year := 2018, value := 60 },
         { blankRow with year := 2022, value := 40 }],
      ∃ P ∈ ([{ name := "2018-2022", startYear := 2018, endYear := 2022, periodLength := 5 }] : List PeriodDef), pr.period = P.name ∧
        (∃ r ∈ ([{ blankRow with year := 2018, value := 60 },
                  { blankRow with year := 2022, value := 40 }] : List Row),
          (P.startYear ≤ r.year ∧ r.year ≤ P.endYear) ∧
          rowKey r = (pr.country, pr.continent, pr.income_level, pr.prices,
            pr.counterpart_type)) ∧
        pr.value = round2 (((([{ blankRow with year := 2018, value := 60 },
            { blankRow with year := 2022, value := 40 }] : List Row).filter (fun r =>
          decide ((P.startYear ≤ r.year ∧ r.year ≤ P.endYear) ∧
            rowKey r = (pr.country, pr.continent, pr.income_level, pr.prices,
              pr.counterpart_type)))).map Row.value).sum / P.periodLength)) ∧
     (∀ P ∈ ([{ name := "2018-2022", startYear := 2018, endYear := 2022, periodLength := 5 }] : List PeriodDef),
      ∀ r ∈ ([{ blankRow with year := 2018, value := 60 },
               { blankRow with year := 2022, value := 40 }] : List Row),
        P.startYear ≤ r.year → r.year ≤ P.endYear →
      ∃ pr ∈ debtServiceByPeriod
          [{ name := "2018-2022", startYear := 2018, endYear := 2022, periodLength := 5 }]
          [{ blankRow with year := 2018, value := 60 },
           { blankRow with year := 2022, value := 40 }],
        pr.period = P.name ∧
        rowKey r = (pr.country, pr.continent, pr.income_level, pr.prices,
          pr.counterpart_type)) ∧
     round2 ((100 : ℚ) / 5) = 20) :=
  ⟨List.pairwise_singleton _ _, List.pairwise_singleton _ _,
    c9_period_averaging
      [{ name := "2018-2022", startYear := 2018, endYear := 2022, periodLength := 5 }]
      [{ blankRow with year := 2018, value := 60 },
       { blankRow with year := 2022, value := 40 }]
      (List.pairwise_singleton _ _) (List.pairwise_singleton _ _)⟩
